import Mathlib

/-!
Verification of the ai-flashcard-generator map-reduce orchestrator, prompt
builder, JSON persistence and top-level driver against their natural-language
specification.  The Python sources (map_reduce_graph.py, utils.py,
flashcard_generator.py, config.py) are shallowly embedded below: pure
functions become Lean functions, the LangGraph workflow becomes explicit
state passing with a fuel-bounded collapse loop, model calls become function
parameters, and fallible code returns Except.
-/

namespace AFG

/-- Token ceiling from config.py (TOKEN_MAX = 100000). -/
def TOKEN_MAX : Nat := 100000

/-- LangChain Document as consumed by map_reduce_graph.py.  The graph code only
ever reads page_content (metadata is never consulted), so the embedding keeps
just the text. -/
structure Document where
  page_content : String
deriving DecidableEq, Repr

/-- Embedding of utils.length_function: the sum over all documents of the
model token count of the document's text.  The tokenizer
(llm.get_num_tokens) is abstracted as a function from text to a count. -/
def length_function (get_num_tokens : String → Nat) (documents : List Document) : Nat :=
  (documents.map (fun doc => get_num_tokens doc.page_content)).sum

/-- Helper loop of langchain's split_list_of_docs, with the accumulator
playing the role of the running group variable: append the next document,
recompute the length, and on overflow either fail (first document already
too long, the accumulator was empty) or flush the accumulator as a finished
group and restart from the overflowing document. -/
def splitAux (lengthFunc : List Document → Nat) (token_max : Nat) :
    List Document → List Document → Except String (List (List Document))
  | sub_result_docs, [] => .ok [sub_result_docs]
  | sub_result_docs, doc :: docs =>
    if token_max < lengthFunc (sub_result_docs ++ [doc]) then
      if sub_result_docs.isEmpty then
        .error ("A single document was longer than the context length")
      else
        (splitAux lengthFunc token_max [doc] docs).map
          (fun groups => sub_result_docs :: groups)
    else
      splitAux lengthFunc token_max (sub_result_docs ++ [doc]) docs

/-- Embedding of langchain's split_list_of_docs as called from
MapReduceGraph._collapse_summaries: greedy left-to-right packing of the
document list into contiguous groups under the given ceiling, failing when a
single document alone already overflows an empty group. -/
def split_list_of_docs (lengthFunc : List Document → Nat) (token_max : Nat)
    (docs : List Document) : Except String (List (List Document)) :=
  splitAux lengthFunc token_max [] docs

/-- Embedding of langchain's acollapse_docs: invoke the combine function
(the map chain) on the whole group and wrap the answer as one Document. -/
def collapse_docs (combine : List Document → String) (doc_list : List Document) : Document :=
  { page_content := combine doc_list }

/-- One Collapse pass over a document list (the body of
MapReduceGraph._collapse_summaries, with the token ceiling as a parameter;
the graph instantiates it at TOKEN_MAX): split into groups, then collapse
each group to a single document via the map chain. -/
def collapse_pass (lengthFunc : List Document → Nat) (combine : List Document → String)
    (token_max : Nat) (docs : List Document) : Except String (List Document) :=
  (split_list_of_docs lengthFunc token_max docs).map
    (fun doc_lists => doc_lists.map (collapse_docs combine))

/-- OverallState of MapReduceGraph: chunk contents, accumulated per-chunk
summaries (an operator.add append channel), the current collapsible
intermediate documents, and the eventual final result. -/
structure OverallState (R : Type) where
  contents : List String
  summaries : List String
  collapsed_summaries : List Document
  final_summary : Option R
deriving DecidableEq, Repr

/-- SummaryState of MapReduceGraph: the single chunk handed to one map task. -/
structure SummaryState where
  content : String
deriving DecidableEq, Repr

/-- Partial state update returned by a graph node, modelling the Python dict:
a field is some v exactly when the node's returned dict carries that key. -/
structure StateUpdate (R : Type) where
  contents : Option (List String) := none
  summaries : Option (List String) := none
  collapsed_summaries : Option (List Document) := none
  final_summary : Option R := none
deriving DecidableEq, Repr

/-- LangGraph channel merge for OverallState: summaries is an operator.add
channel (the returned list is appended), the other keys are last-value
channels (overwritten when present, untouched when absent). -/
def applyUpdate {R : Type} (state : OverallState R) (update : StateUpdate R) :
    OverallState R :=
  { contents := update.contents.getD state.contents
    summaries := state.summaries ++ update.summaries.getD []
    collapsed_summaries := update.collapsed_summaries.getD state.collapsed_summaries
    final_summary := match update.final_summary with
      | some r => some r
      | none => state.final_summary }

/-- The map chain, as invoked at its two call sites: on one raw chunk string
(in _generate_summary) and on a list of documents (via acollapse_docs in
_collapse_summaries). -/
structure MapChain where
  onContent : String → String
  onDocs : List Document → String

/-- Send object produced by fan-out: target node plus its private state. -/
structure Send where
  node : String
  arg : SummaryState
deriving DecidableEq, Repr

/-- MapReduceGraph._map_summaries: one Send to generate_summary per chunk. -/
def map_summaries {R : Type} (state : OverallState R) : List Send :=
  state.contents.map (fun content => { node := ("generate_summary"), arg := { content } })

/-- MapReduceGraph._generate_summary: invoke the map chain on the chunk and
return an update appending the single response to the summaries channel. -/
def generate_summary {R : Type} (chain : MapChain) (state : SummaryState) : StateUpdate R :=
  { summaries := some [chain.onContent state.content] }

/-- MapReduceGraph._collect_summaries: wrap every accumulated summary into a
Document; the returned dict carries only collapsed_summaries. -/
def collect_summaries {R : Type} (state : OverallState R) : StateUpdate R :=
  { collapsed_summaries :=
      some (state.summaries.map (fun summary => { page_content := summary })) }

/-- MapReduceGraph._collapse_summaries: one collapse pass at TOKEN_MAX over
the current collapsed_summaries; the returned dict carries only
collapsed_summaries. -/
def collapse_summaries {R : Type} (lengthFunc : List Document → Nat) (chain : MapChain)
    (state : OverallState R) : Except String (StateUpdate R) :=
  (collapse_pass lengthFunc chain.onDocs TOKEN_MAX state.collapsed_summaries).map
    (fun results => { collapsed_summaries := some results })

/-- MapReduceGraph._generate_final_summary: invoke the reduce chain on the
summaries field of the state (this is what the source does: line 185 reads
state["summaries"], not state["collapsed_summaries"]) and return an update
carrying only final_summary. -/
def generate_final_summary {R : Type} (reduce_chain : List String → R)
    (state : OverallState R) : StateUpdate R :=
  { final_summary := some (reduce_chain state.summaries) }

/-- Literal return type of MapReduceGraph._should_collapse. -/
inductive NextNode
  | collapse_summaries
  | generate_final_summary
deriving DecidableEq, Repr

/-- MapReduceGraph._should_collapse: measure the current collapsed documents
with the configured length function and branch on the TOKEN_MAX ceiling. -/
def should_collapse {R : Type} (lengthFunc : List Document → Nat)
    (state : OverallState R) : NextNode :=
  if TOKEN_MAX < lengthFunc state.collapsed_summaries then .collapse_summaries
  else .generate_final_summary

/-- Decide/Collapse loop of the compiled graph on the state level, bounded by
fuel (the Python loop is unbounded; a completed run of the real system
corresponds to an .ok result for a sufficiently large fuel). -/
def collapse_loop {R : Type} (lengthFunc : List Document → Nat) (chain : MapChain) :
    Nat → OverallState R → Except String (OverallState R)
  | 0, _ => .error ("recursion limit reached")
  | fuel + 1, state =>
    match should_collapse lengthFunc state with
    | .generate_final_summary => .ok state
    | .collapse_summaries =>
      match collapse_summaries lengthFunc chain state with
      | .error e => .error e
      | .ok update => collapse_loop lengthFunc chain fuel (applyUpdate state update)

/-- Decide/Collapse loop on the bare document list with the ceiling as a
parameter, used to reason about the loop for an arbitrary token ceiling. -/
def collapse_loop_docs (lengthFunc : List Document → Nat) (combine : List Document → String)
    (token_max : Nat) : Nat → List Document → Except String (List Document)
  | 0, _ => .error ("recursion limit reached")
  | fuel + 1, docs =>
    if token_max < lengthFunc docs then
      match collapse_pass lengthFunc combine token_max docs with
      | .error e => .error e
      | .ok next => collapse_loop_docs lengthFunc combine token_max fuel next
    else
      .ok docs

/-- Initial OverallState produced by app.ainvoke with the contents key set:
the append channel starts empty, the other channels are unset. -/
def initialState (R : Type) (input_contents : List String) : OverallState R :=
  { contents := input_contents
    summaries := []
    collapsed_summaries := []
    final_summary := none }

/-- Fan-out phase: issue the Sends of _map_summaries and merge every
generate_summary result into the state (order-insensitive append channel;
the embedding uses Send order). -/
def run_fanout {R : Type} (chain : MapChain) (state : OverallState R) : OverallState R :=
  (map_summaries state).foldl
    (fun s send => applyUpdate s (generate_summary chain send.arg)) state

/-- State at the first evaluation of _should_collapse: fan-out finished and
collect_summaries applied. -/
def pre_decide_state (R : Type) (chain : MapChain) (input_contents : List String) :
    OverallState R :=
  let s := run_fanout chain (initialState R input_contents)
  applyUpdate s (collect_summaries s)

/-- Result of one orchestrator run: the final state together with the list of
inputs on which the reduce chain was invoked (it is invoked exactly at the
generate_final_summary node, on state["summaries"]). -/
structure RunResult (R : Type) where
  state : OverallState R
  reduce_calls : List (List String)
deriving DecidableEq, Repr

/-- Whole compiled-graph run: fan-out, collect, Decide/Collapse loop, then the
terminal generate_final_summary node. -/
def run_graph {R : Type} (lengthFunc : List Document → Nat) (chain : MapChain)
    (reduce_chain : List String → R) (fuel : Nat) (input_contents : List String) :
    Except String (RunResult R) :=
  match collapse_loop lengthFunc chain fuel (pre_decide_state R chain input_contents) with
  | .error e => .error e
  | .ok state =>
    .ok { state := applyUpdate state (generate_final_summary reduce_chain state)
          reduce_calls := [state.summaries] }

/-! ### utils.get_prompt_template (prompt builder) -/

/-- PromptTemplateInput of utils.py: at runtime a plain dict, so each of the
two required keys may in fact be absent; a field is some v exactly when the
key is present. -/
structure PromptTemplateInput where
  system : Option String
  user : Option String
deriving DecidableEq, Repr

/-- Scanner state of CPython's format-string markup iterator, as driven by
string.Formatter().parse.  literal walks ordinary text; afterLbrace and
afterRbrace sit just after a brace in literal text and decide between a
doubled-brace escape, the start of a replacement field, and the lone-brace
errors; fieldName is inside a replacement field's name; index is inside a
bracketed item index within a field name, where a closing brace has no
special meaning; conversion sits just after an exclamation mark and
consumes exactly one character; afterConversion decides between the
closing brace and a format spec; and formatSpec carries the open-brace
depth of the format specification (the only place where braces nest). -/
inductive FmtState
  | literal
  | afterLbrace
  | afterRbrace
  | fieldName
  | index
  | conversion
  | afterConversion
  | formatSpec (depth : Nat)
deriving DecidableEq, Repr

/-- One-character-per-step acceptance scan of an f-string template,
mirroring CPython's MarkupIterator_next and parse_field (the code
string.Formatter().parse runs when langchain's from_template extracts
input variables): doubled braces in literal text are escapes and lone
closing braces or a trailing lone opening brace are errors; inside a field
name an opening brace is an error, an opening bracket enters an index that
is only ended by a closing bracket, a closing brace ends the field, and a
colon or exclamation mark move to the format spec or conversion; a
conversion is one arbitrary character after which only a closing brace or
a colon may follow, except that running out of characters there lands in
the empty format spec, which is unterminated; a format spec nests on inner
braces and must close every one before the template ends. -/
def scanFormat : FmtState → List Char → Bool
  | .literal, [] => true
  | .afterLbrace, [] => false
  | .afterRbrace, [] => false
  | .fieldName, [] => false
  | .index, [] => false
  | .conversion, [] => false
  | .afterConversion, [] => false
  | .formatSpec _, [] => false
  | .literal, c :: rest =>
    if c = '\x7b' then scanFormat .afterLbrace rest
    else if c = '\x7d' then scanFormat .afterRbrace rest
    else scanFormat .literal rest
  | .afterLbrace, c :: rest =>
    if c = '\x7b' then scanFormat .literal rest
    else if c = '[' then scanFormat .index rest
    else if c = '\x7d' then scanFormat .literal rest
    else if c = ':' then scanFormat (.formatSpec 1) rest
    else if c = '!' then scanFormat .conversion rest
    else scanFormat .fieldName rest
  | .afterRbrace, c :: rest =>
    if c = '\x7d' then scanFormat .literal rest else false
  | .fieldName, c :: rest =>
    if c = '\x7b' then false
    else if c = '[' then scanFormat .index rest
    else if c = '\x7d' then scanFormat .literal rest
    else if c = ':' then scanFormat (.formatSpec 1) rest
    else if c = '!' then scanFormat .conversion rest
    else scanFormat .fieldName rest
  | .index, c :: rest =>
    if c = ']' then scanFormat .fieldName rest
    else scanFormat .index rest
  | .conversion, _ :: rest => scanFormat .afterConversion rest
  | .afterConversion, c :: rest =>
    if c = '\x7d' then scanFormat .literal rest
    else if c = ':' then scanFormat (.formatSpec 1) rest
    else false
  | .formatSpec depth, c :: rest =>
    if c = '\x7b' then scanFormat (.formatSpec (depth + 1)) rest
    else if c = '\x7d' then
      if depth = 1 then scanFormat .literal rest
      else scanFormat (.formatSpec (depth - 1)) rest
    else scanFormat (.formatSpec depth) rest

/-- Validity of an f-string template: the scan of the whole text from the
literal state accepts. -/
def validateFormat (template : String) : Bool :=
  scanFormat .literal template.data

/-- Message prompt template wrapping one template string. -/
structure PromptTemplate where
  template : String
deriving DecidableEq, Repr

/-- Role tag of a message inside a chat prompt template. -/
inductive MsgRole
  | system
  | human
deriving DecidableEq, Repr

/-- ChatPromptTemplate.from_messages result: the ordered message templates. -/
structure ChatPromptTemplate where
  messages : List (MsgRole × PromptTemplate)
deriving DecidableEq, Repr

/-- Embedding of SystemMessagePromptTemplate.from_template and
HumanMessagePromptTemplate.from_template: langchain extracts the template's
input variables through Formatter().parse at construction time, so a
malformed f-string template raises ValueError here. -/
def from_template (template : String) : Except String PromptTemplate :=
  if validateFormat template then .ok { template }
  else .error ("ValueError: invalid format string")

/-- utils.get_prompt_template: build the system template from prompt["system"]
(a missing key raises KeyError first), then the human template from
prompt["user"], and combine them.  Accessing system, building its template,
accessing user, building its template happen in source order. -/
def get_prompt_template (prompt : PromptTemplateInput) : Except String ChatPromptTemplate :=
  match prompt.system with
  | none => .error ("KeyError: system")
  | some system_str =>
    match from_template system_str with
    | .error e => .error e
    | .ok system_message_prompt =>
      match prompt.user with
      | none => .error ("KeyError: user")
      | some user_str =>
        (from_template user_str).map (fun human_message_prompt =>
          { messages := [(.system, system_message_prompt), (.human, human_message_prompt)] })

/-! ### utils.save_json_file / utils.load_json_file

A flashcard set is a mapping from question strings to answer strings; a
Python dict is modelled as its items list (keys pairwise distinct, insertion
order kept).  save_json_file is modelled as the exact UTF-8 text that
json.dump(data, f, indent=2, ensure_ascii=False) writes; load_json_file as
Python's json.loads on that text, restricted to the string-to-string object
fragment that flashcard sets inhabit.  Strings range over Unicode scalar
values (Lean Char), matching well-formed Python str. -/

/-- Lowercase hex digit, as used by json.dump's \u escapes. -/
def hexDigitChar (n : Nat) : Char :=
  if n < 10 then Char.ofNat (48 + n) else Char.ofNat (87 + n)

/-- Escape one character the way json.dump with ensure_ascii=False does:
quote, backslash and the named control escapes get two-character escapes,
any other control character below 0x20 becomes \u00XX, everything else is
written verbatim. -/
def escapeChar (c : Char) : List Char :=
  if c = '\x22' then ['\x5c', '\x22']
  else if c = '\x5c' then ['\x5c', '\x5c']
  else if c = '\x08' then ['\x5c', 'b']
  else if c = '\x0c' then ['\x5c', 'f']
  else if c = '\n' then ['\x5c', 'n']
  else if c = '\r' then ['\x5c', 'r']
  else if c = '\t' then ['\x5c', 't']
  else if c.toNat < 32 then
    ['\x5c', 'u', '0', '0', hexDigitChar (c.toNat / 16), hexDigitChar (c.toNat % 16)]
  else [c]

/-- JSON string literal for the given text. -/
def encodeString (s : List Char) : List Char :=
  '\x22' :: (s.flatMap escapeChar ++ ['\x22'])

/-- One object member as json.dump renders it: key, colon, space, value. -/
def dumpPair (p : String × String) : List Char :=
  encodeString p.1.data ++ [':', ' '] ++ encodeString p.2.data

/-- Member list with indent=2: each member on its own line indented by two
spaces, members separated by commas. -/
def dumpItems : List (String × String) → List Char
  | [] => []
  | [p] => '\n' :: ' ' :: ' ' :: dumpPair p
  | p :: ps => '\n' :: ' ' :: ' ' :: (dumpPair p ++ ',' :: dumpItems ps)

/-- Text of json.dump(data, indent=2, ensure_ascii=False) for a
string-to-string mapping. -/
def dumps : List (String × String) → List Char
  | [] => ['\x7b', '\x7d']
  | p :: ps => '\x7b' :: (dumpItems (p :: ps) ++ ['\n', '\x7d'])

/-- utils.save_json_file, modelled as the file text it writes. -/
def save_json_file (data : List (String × String)) : String :=
  { data := dumps data }

/-- JSON whitespace accepted between tokens by json.loads. -/
def isJsonWs (c : Char) : Bool :=
  c = ' ' || c = '\t' || c = '\n' || c = '\r'

/-- Skip JSON whitespace. -/
def skipWs : List Char → List Char
  | c :: rest => if isJsonWs c then skipWs rest else c :: rest
  | [] => []

/-- Value of one hex digit, either case, as json.loads accepts in \uXXXX. -/
def hexVal (c : Char) : Option Nat :=
  if 48 ≤ c.toNat ∧ c.toNat ≤ 57 then some (c.toNat - 48)
  else if 97 ≤ c.toNat ∧ c.toNat ≤ 102 then some (c.toNat - 87)
  else if 65 ≤ c.toNat ∧ c.toNat ≤ 70 then some (c.toNat - 55)
  else none

/-- Second half of a surrogate pair: after a high surrogate n, expect another
backslash-u escape holding a low surrogate and combine the pair into one
scalar. -/
def decodePair (n : Nat) : List Char → Option (Char × List Char)
  | e2 :: u2 :: a :: b :: c :: d :: rest2 =>
    if e2 = '\x5c' ∧ u2 = 'u' then
      match hexVal a, hexVal b, hexVal c, hexVal d with
      | some la, some lb, some lc, some ld =>
        if 56320 ≤ ((la * 16 + lb) * 16 + lc) * 16 + ld ∧
            ((la * 16 + lb) * 16 + lc) * 16 + ld < 57344 then
          some (Char.ofNat (65536 + (n - 55296) * 1024 +
            (((la * 16 + lb) * 16 + lc) * 16 + ld - 56320)), rest2)
        else none
      | _, _, _, _ => none
    else none
  | _ => none

/-- Continuation of a \uXXXX escape whose first code unit is n, per Python's
json scanner: a high surrogate must be followed by a second \uXXXX low
surrogate and the pair combines into one scalar (a lone surrogate is not
representable as a Unicode scalar string and is rejected here), a lone low
surrogate is rejected, and any other code unit stands for itself. -/
def decodeUnicode (n : Nat) (rest : List Char) : Option (Char × List Char) :=
  if 55296 ≤ n ∧ n < 56320 then decodePair n rest
  else if 56320 ≤ n ∧ n < 57344 then none
  else some (Char.ofNat n, rest)

/-- Decode one escape sequence positioned just after a backslash: the named
escapes of the JSON grammar, or \uXXXX handed to decodeUnicode. -/
def decodeEscape : List Char → Option (Char × List Char)
  | [] => none
  | e :: rest =>
    if e = '\x22' then some ('\x22', rest)
    else if e = '\x5c' then some ('\x5c', rest)
    else if e = '/' then some ('/', rest)
    else if e = 'b' then some ('\x08', rest)
    else if e = 'f' then some ('\x0c', rest)
    else if e = 'n' then some ('\n', rest)
    else if e = 'r' then some ('\r', rest)
    else if e = 't' then some ('\t', rest)
    else if e = 'u' then
      match rest with
      | a :: b :: c :: d :: rest2 =>
        match hexVal a, hexVal b, hexVal c, hexVal d with
        | some ha, some hb, some hc, some hd =>
          decodeUnicode (((ha * 16 + hb) * 16 + hc) * 16 + hd) rest2
        | _, _, _, _ => none
      | _ => none
    else none

/-- Body of a JSON string literal after the opening quote, per json.loads in
strict mode: a closing quote ends it, a backslash starts an escape, an
unescaped control character below 0x20 is rejected, any other character
stands for itself.  One fuel unit per produced character, so content length
< fuel always suffices. -/
def parseStringBody : Nat → List Char → Option (List Char × List Char)
  | 0, _ => none
  | _ + 1, [] => none
  | fuel + 1, c :: rest =>
    if c = '\x22' then some ([], rest)
    else if c = '\x5c' then
      match decodeEscape rest with
      | none => none
      | some (ch, rest2) => (parseStringBody fuel rest2).map (fun (s, r) => (ch :: s, r))
    else if c.toNat < 32 then none
    else (parseStringBody fuel rest).map (fun (s, r) => (c :: s, r))

/-- One key/value member of a string-valued object: a string key, optional
whitespace, a colon, optional whitespace, a string value.  The sfuel bound
feeds the string parser. -/
def parseMember (sfuel : Nat) (l : List Char) : Option ((String × String) × List Char) :=
  match l with
  | [] => none
  | c :: r0 =>
    if c = '\x22' then
      match parseStringBody sfuel r0 with
      | none => none
      | some (k, r1) =>
        match skipWs r1 with
        | [] => none
        | c1 :: r2 =>
          if c1 = ':' then
            match skipWs r2 with
            | [] => none
            | c2 :: r3 =>
              if c2 = '\x22' then
                (parseStringBody sfuel r3).map
                  (fun (v, r4) => (({ data := k }, { data := v }), r4))
              else none
          else none
    else none

/-- Comma-separated member list of an object, positioned at the first member;
one fuel unit per member, so member count < fuel always suffices. -/
def parseMembers (sfuel : Nat) : Nat → List Char → Option (List (String × String) × List Char)
  | 0, _ => none
  | fuel + 1, l =>
    match parseMember sfuel l with
    | none => none
    | some (kv, rest) =>
      match skipWs rest with
      | [] => none
      | c :: r2 =>
        if c = ',' then
          (parseMembers sfuel fuel (skipWs r2)).map (fun (kvs, r) => (kv :: kvs, r))
        else if c = '\x7d' then some ([kv], r2)
        else none

/-- JSON object of string values, with surrounding whitespace skipped. -/
def parseObject (sfuel fuel : Nat) (l : List Char) : Option (List (String × String) × List Char) :=
  match skipWs l with
  | [] => none
  | c :: r =>
    if c = '\x7b' then
      match skipWs r with
      | [] => none
      | c2 :: r2 => if c2 = '\x7d' then some ([], r2) else parseMembers sfuel fuel (c2 :: r2)
    else none

/-- Python dict assignment d[k] = v on an items list: replace the value in
place when the key is present, append the new pair otherwise. -/
def dict_update : List (String × String) → String → String → List (String × String)
  | [], k, v => [(k, v)]
  | p :: ps, k, v => if p.1 = k then (k, v) :: ps else p :: dict_update ps k v

/-- Dict built from parsed members in order (later duplicates overwrite). -/
def dict_of_pairs (pairs : List (String × String)) : List (String × String) :=
  pairs.foldl (fun d kv => dict_update d kv.1 kv.2) []

/-- utils.load_json_file on a file holding the given text: parse one
string-to-string JSON object, require only whitespace after it (json.loads
raises Extra data otherwise), and build the dict. -/
def load_json_file (text : String) : Except String (List (String × String)) :=
  match parseObject (text.data.length + 1) (text.data.length + 1) text.data with
  | some (pairs, rest) =>
    if (skipWs rest).isEmpty then .ok (dict_of_pairs pairs)
    else .error ("JSONDecodeError: Extra data")
  | none => .error ("JSONDecodeError: Expecting value")

/-! ### flashcard_generator.FlashcardGenerator.__init__ -/

/-- Failure taxonomy of the driver: document load failure (FileNotFoundError
or unreadable input from PyPDFLoader), malformed prompt configuration, and
failures raised later during generation. -/
inductive GenError
  | load (msg : String)
  | prompt (msg : String)
  | generation (msg : String)
deriving DecidableEq, Repr

/-- Externally visible effects of driver code: reading the input file and
issuing a model call.  Model calls happen only inside chain invocations,
which the constructor never performs. -/
inductive Effect
  | fileRead (path : String)
  | modelCall (input : String)
deriving DecidableEq, Repr

/-- Data held by a successfully constructed FlashcardGenerator. -/
structure FlashcardGeneratorData where
  file_path : String
  documents : List Document
  map_prompt_template : ChatPromptTemplate
  reduce_prompt_template : ChatPromptTemplate
deriving DecidableEq, Repr

/-- FlashcardGenerator.__init__, with the filesystem behaviour of
DocumentLoader.load_and_split (PyPDFLoader plus the tiktoken splitter)
abstracted as an environment from path to outcome.  Mirrors the source
order: get_llm() constructs the client (no model call), _load_documents()
runs and may raise, then the two prompt templates are built, then the
chains and graph are assembled (no model call).  The effect trace records
everything the constructor did. -/
def flashcard_generator_init (env : String → Except String (List Document))
    (file_path : String) (map_prompt reduce_prompt : PromptTemplateInput) :
    Except GenError FlashcardGeneratorData × List Effect :=
  match env file_path with
  | .error msg => (.error (.load msg), [.fileRead file_path])
  | .ok documents =>
    match get_prompt_template map_prompt with
    | .error msg => (.error (.prompt msg), [.fileRead file_path])
    | .ok map_prompt_template =>
      match get_prompt_template reduce_prompt with
      | .error msg => (.error (.prompt msg), [.fileRead file_path])
      | .ok reduce_prompt_template =>
        (.ok { file_path, documents, map_prompt_template, reduce_prompt_template },
          [.fileRead file_path])

/-! ### Concrete instances used to evaluate the embedding on closed inputs -/

/-- Tokenizer for the reduce-input evaluation: 60000 tokens per character, so
each one-character chunk summary counts 60000 and the empty merged document
counts 0. -/
def c1Tok : String → Nat := fun s => 60000 * s.length

/-- Map chain for the reduce-input evaluation: summaries are the chunks
themselves, collapsing any group yields the empty document. -/
def c1Chain : MapChain := { onContent := fun content => content, onDocs := fun _ => "" }

/-- Reduce chain for the reduce-input evaluation: count its inputs. -/
def c1Reduce : List String → Nat := List.length

/-- Completed run of the orchestrator on chunks a, b under c1Tok. -/
def c1Res : RunResult Nat :=
  { state :=
      { contents := ["a", "b"]
        summaries := ["a", "b"]
        collapsed_summaries := [{ page_content := ("") }, { page_content := ("") }]
        final_summary := some 2 }
    reduce_calls := [["a", "b"]] }

/-- Tokenizer counting every text as 0 tokens. -/
def c2Tok : String → Nat := fun _ => 0

/-- Identity-style map chain. -/
def c2Chain : MapChain := { onContent := fun content => content, onDocs := fun _ => "d" }

/-- Counting reduce chain. -/
def c2Reduce : List String → Nat := List.length

/-- Completed run on the single chunk x. -/
def c2Res : RunResult Nat :=
  { state :=
      { contents := ["x"]
        summaries := ["x"]
        collapsed_summaries := [{ page_content := ("x") }]
        final_summary := some 1 }
    reduce_calls := [["x"]] }

/-- Tokenizer under which a single document exceeds the ceiling 10. -/
def c3CexTok : String → Nat := fun _ => 11

/-- Tokenizer counting every text as 4 tokens. -/
def c3Tok : String → Nat := fun _ => 4

/-- Combine function producing the document c for any group. -/
def c3Combine : List Document → String := fun _ => "c"

/-- Three documents of 4 tokens each. -/
def c3Docs : List Document :=
  [{ page_content := ("p") }, { page_content := ("q") }, { page_content := ("r") }]

/-- Greedy grouping of c3Docs under ceiling 10. -/
def c3Groups : List (List Document) :=
  [[{ page_content := ("p") }, { page_content := ("q") }], [{ page_content := ("r") }]]

/-- Tokenizer counting every text as 60000 tokens: each document fits under
TOKEN_MAX alone, but no two fit together. -/
def c4Tok : String → Nat := fun _ => 60000

/-- Combine function for the no-shrink counterexample. -/
def c4Combine : List Document → String := fun _ => "m"

/-- Three documents of 60000 tokens each. -/
def c4Docs : List Document :=
  [{ page_content := ("x") }, { page_content := ("y") }, { page_content := ("z") }]

/-- Tokenizer counting every text as 4 tokens (half-ceiling witness). -/
def c4WTok : String → Nat := fun _ => 4

/-- Combine function for the half-ceiling witness. -/
def c4WCombine : List Document → String := fun _ => "c"

/-- Three documents of 4 tokens each under ceiling 10. -/
def c4WDocs : List Document :=
  [{ page_content := ("p") }, { page_content := ("q") }, { page_content := ("r") }]

/-- Map chain for the fan-out witness. -/
def c5Chain : MapChain := { onContent := fun content => content ++ "!", onDocs := fun _ => "d" }

/-- Length function for the Decide witness: every document counts 200000. -/
def c6Lf : List Document → Nat := length_function (fun _ => 200000)

/-- State holding one collapsed document of 200000 tokens. -/
def c6State : OverallState Nat :=
  { contents := []
    summaries := []
    collapsed_summaries := [{ page_content := ("s") }]
    final_summary := none }

/-- Small flashcard set with distinct questions. -/
def c7Data : List (String × String) :=
  [("What is Lean?", "A proof assistant."), ("Two plus two?", "Four.")]

/-- Filesystem environment in which every path is unreadable. -/
def c8Env : String → Except String (List Document) :=
  fun _ => .error ("FileNotFoundError")

/-- Prompt configuration with both fields present whose user template is the
single malformed opening-brace character. -/
def c9Cex : PromptTemplateInput :=
  { system := some ("You are a helpful assistant."), user := some ("\x7b") }

/-- Well-formed prompt configuration with a placeholder in the user field. -/
def c9Good : PromptTemplateInput :=
  { system := some ("You are a helpful assistant.")
    user := some ("Please summarize the following: \x7bdocs\x7d") }

/-- Map chain for the frame witness. -/
def c10Chain : MapChain := { onContent := fun content => content, onDocs := fun _ => "d" }

/-- State for the frame witness. -/
def c10State : OverallState Nat :=
  { contents := ["k"]
    summaries := ["s1"]
    collapsed_summaries := [{ page_content := ("s1") }]
    final_summary := none }

/-! ### Helper lemmas -/

/-- Fan-out fold: merging the generate_summary updates of a Send list appends
one map-chain response per Send and touches nothing else. -/
theorem fanout_foldl {R : Type} (chain : MapChain) :
    ∀ (sends : List Send) (s : OverallState R),
      sends.foldl (fun st send => applyUpdate st (generate_summary chain send.arg)) s =
        { contents := s.contents
          summaries := s.summaries ++ sends.map (fun send => chain.onContent send.arg.content)
          collapsed_summaries := s.collapsed_summaries
          final_summary := s.final_summary } := by
  intro sends
  induction sends with
  | nil => intro s; cases s; simp
  | cons hd tl ih =>
    intro s
    rw [List.foldl_cons, ih]
    cases s
    simp [applyUpdate, generate_summary]

/-- Closed form of the state reached when _should_collapse first runs. -/
theorem pre_decide_state_eq (R : Type) (chain : MapChain) (input_contents : List String) :
    pre_decide_state R chain input_contents =
      { contents := input_contents
        summaries := input_contents.map chain.onContent
        collapsed_summaries :=
          (input_contents.map chain.onContent).map (fun summary => { page_content := summary })
        final_summary := none } := by
  unfold pre_decide_state run_fanout
  rw [fanout_foldl]
  simp [map_summaries, initialState, collect_summaries, applyUpdate, List.map_map]

/-- Update dict returned by a successful _collapse_summaries: only the
collapsed_summaries key is present. -/
theorem collapse_summaries_fields {R : Type} (lengthFunc : List Document → Nat)
    (chain : MapChain) (s : OverallState R) (u : StateUpdate R)
    (h : collapse_summaries lengthFunc chain s = .ok u) :
    u.contents = none ∧ u.summaries = none ∧ u.final_summary = none := by
  unfold collapse_summaries at h
  cases hp : collapse_pass lengthFunc chain.onDocs TOKEN_MAX s.collapsed_summaries with
  | error e => rw [hp] at h; simp [Except.map] at h
  | ok v =>
    rw [hp] at h
    simp [Except.map] at h
    subst h
    exact ⟨rfl, rfl, rfl⟩

/-- Decide/Collapse loop frame: a completed loop leaves the contents,
summaries and final_summary channels untouched. -/
theorem collapse_loop_frame {R : Type} (lengthFunc : List Document → Nat) (chain : MapChain) :
    ∀ (fuel : Nat) (s s' : OverallState R),
      collapse_loop lengthFunc chain fuel s = .ok s' →
      s'.contents = s.contents ∧ s'.summaries = s.summaries ∧
        s'.final_summary = s.final_summary := by
  intro fuel
  induction fuel with
  | zero => intro s s' h; simp [collapse_loop] at h
  | succ n ih =>
    intro s s' h
    rw [collapse_loop] at h
    split at h
    · simp at h
      subst h
      exact ⟨rfl, rfl, rfl⟩
    · split at h
      · simp at h
      · rename_i update heq
        have hu := collapse_summaries_fields lengthFunc chain s update heq
        have hrec := ih (applyUpdate s update) s' h
        refine ⟨?_, ?_, ?_⟩
        · rw [hrec.1]; simp [applyUpdate, hu.1]
        · rw [hrec.2.1]; simp [applyUpdate, hu.2.1]
        · rw [hrec.2.2]; simp [applyUpdate, hu.2.2]

/-- Splitting the length function over an append. -/
theorem length_function_append (get_num_tokens : String → Nat) (l1 l2 : List Document) :
    length_function get_num_tokens (l1 ++ l2) =
      length_function get_num_tokens l1 + length_function get_num_tokens l2 := by
  simp [length_function]

/-- Specification of the splitAux loop from a non-empty accumulator whose
multi-element contents already fit: it succeeds, its groups concatenate back
to the remaining input, every group is non-empty, and every group of two or
more documents fits under the ceiling. -/
theorem splitAux_ok (lengthFunc : List Document → Nat) (token_max : Nat) :
    ∀ (docs acc : List Document), acc ≠ [] →
      (2 ≤ acc.length → lengthFunc acc ≤ token_max) →
      ∃ groups, splitAux lengthFunc token_max acc docs = .ok groups ∧
        groups.flatten = acc ++ docs ∧
        (∀ g ∈ groups, g ≠ []) ∧
        (∀ g ∈ groups, 2 ≤ g.length → lengthFunc g ≤ token_max) := by
  intro docs
  induction docs with
  | nil =>
    intro acc hne hacc
    refine ⟨[acc], rfl, by simp, ?_, ?_⟩
    · intro g hg
      rw [List.mem_singleton] at hg
      subst hg
      exact hne
    · intro g hg
      rw [List.mem_singleton] at hg
      subst hg
      exact hacc
  | cons doc rest ih =>
    intro acc hne hacc
    by_cases hbig : token_max < lengthFunc (acc ++ [doc])
    · have hFalse : acc.isEmpty = false := by
        cases acc with
        | nil => exact absurd rfl hne
        | cons a as => rfl
      obtain ⟨groups, hok, hjoin, hnonempty, hbound⟩ :=
        ih [doc] (by simp) (by intro hlen; simp at hlen)
      refine ⟨acc :: groups, ?_, ?_, ?_, ?_⟩
      · rw [splitAux, if_pos hbig, hFalse, if_neg (by simp), hok]
        rfl
      · simp [hjoin]
      · intro g hg
        rcases List.mem_cons.mp hg with h1 | h1
        · subst h1; exact hne
        · exact hnonempty g h1
      · intro g hg hlen
        rcases List.mem_cons.mp hg with h1 | h1
        · subst h1; exact hacc hlen
        · exact hbound g h1 hlen
    · obtain ⟨groups, hok, hjoin, hnonempty, hbound⟩ :=
        ih (acc ++ [doc]) (by simp) (fun _ => Nat.le_of_not_lt hbig)
      refine ⟨groups, ?_, ?_, hnonempty, hbound⟩
      · rw [splitAux, if_neg hbig, hok]
      · rw [hjoin]
        simp

/-- Counting: non-empty groups are at most as many as their concatenation's
elements, strictly fewer as soon as one group has two or more. -/
theorem join_length_bounds : ∀ (groups : List (List Document)),
    (∀ g ∈ groups, g ≠ []) →
    groups.length ≤ groups.flatten.length ∧
    ((∃ g ∈ groups, 2 ≤ g.length) → groups.length < groups.flatten.length) := by
  intro groups
  induction groups with
  | nil => intro _; exact ⟨by simp, by simp⟩
  | cons g gs ih =>
    intro hne
    have hg1 : 1 ≤ g.length := by
      have hx := hne g (List.mem_cons_self g gs)
      cases g with
      | nil => exact absurd rfl hx
      | cons a as => simp
    have ih1 := (ih (fun x hx => hne x (List.mem_cons_of_mem g hx))).1
    have ih2 := (ih (fun x hx => hne x (List.mem_cons_of_mem g hx))).2
    constructor
    · simp only [List.flatten_cons, List.length_append, List.length_cons]
      omega
    · intro hex
      simp only [List.flatten_cons, List.length_append, List.length_cons]
      rcases hex with ⟨w, hw, hwlen⟩
      rcases List.mem_cons.mp hw with hweq | hw'
      · subst hweq
        omega
      · have := ih2 ⟨w, hw', hwlen⟩
        omega

/-- Specification of a successful split_list_of_docs: the groups concatenate
back to the input, every group of two or more documents fits under the
ceiling, and on non-empty input every group is non-empty. -/
theorem split_list_of_docs_spec (lengthFunc : List Document → Nat) (token_max : Nat)
    (docs : List Document) (groups : List (List Document))
    (h : split_list_of_docs lengthFunc token_max docs = .ok groups) :
    groups.flatten = docs ∧
    (∀ g ∈ groups, 2 ≤ g.length → lengthFunc g ≤ token_max) ∧
    (docs ≠ [] → ∀ g ∈ groups, g ≠ []) := by
  cases docs with
  | nil =>
    unfold split_list_of_docs at h
    rw [splitAux] at h
    simp at h
    subst h
    refine ⟨by simp, ?_, fun hne => absurd rfl hne⟩
    intro g hg hlen
    rw [List.mem_singleton] at hg
    subst hg
    simp at hlen
  | cons d rest =>
    unfold split_list_of_docs at h
    rw [splitAux] at h
    by_cases hbig : token_max < lengthFunc ([] ++ [d])
    · rw [if_pos hbig] at h
      simp at h
    · rw [if_neg hbig] at h
      obtain ⟨groups2, hok, hjoin, hnonempty, hbound⟩ :=
        splitAux_ok lengthFunc token_max rest ([] ++ [d]) (by simp)
          (by intro hlen; simp at hlen)
      rw [hok] at h
      simp at h
      subst h
      refine ⟨?_, hbound, fun _ => hnonempty⟩
      rw [hjoin]
      simp

/-- Strict decrease of the group count under the half-ceiling hypothesis:
when every document weighs at most half the ceiling, a flushed group always
has two or more members, so an over-budget list splits into strictly fewer
groups than documents. -/
theorem splitAux_half (get_num_tokens : String → Nat) (token_max : Nat) :
    ∀ (docs acc : List Document),
      (∀ d ∈ acc ++ docs, 2 * get_num_tokens d.page_content ≤ token_max) →
      acc ≠ [] →
      length_function get_num_tokens acc ≤ token_max →
      ∀ groups, splitAux (length_function get_num_tokens) token_max acc docs = .ok groups →
      token_max < length_function get_num_tokens (acc ++ docs) →
      groups.length < (acc ++ docs).length := by
  intro docs
  induction docs with
  | nil =>
    intro acc _ _ hacc groups _ hbig
    rw [List.append_nil] at hbig
    omega
  | cons d rest ih =>
    intro acc hhalf hne hacc groups hok hbig
    rw [splitAux] at hok
    by_cases hover : token_max < length_function get_num_tokens (acc ++ [d])
    · rw [if_pos hover] at hok
      have hFalse : acc.isEmpty = false := by
        cases acc with
        | nil => exact absurd rfl hne
        | cons a as => rfl
      rw [hFalse, if_neg (by simp)] at hok
      have hacc2 : 2 ≤ acc.length := by
        rcases acc with _ | ⟨a, _ | ⟨b, as⟩⟩
        · exact absurd rfl hne
        · exfalso
          have ha := hhalf a (by simp)
          have hd := hhalf d (by simp)
          rw [length_function_append] at hover
          simp [length_function] at hover
          omega
        · simp
      obtain ⟨groups2, hok2, hjoin2, hnonempty2, _⟩ :=
        splitAux_ok (length_function get_num_tokens) token_max rest [d] (by simp)
          (by intro hlen; simp at hlen)
      rw [hok2] at hok
      simp [Except.map] at hok
      subst hok
      have hcount := (join_length_bounds groups2 hnonempty2).1
      rw [hjoin2] at hcount
      simp only [List.length_cons, List.length_append, List.length_nil] at hcount ⊢
      omega
    · rw [if_neg hover] at hok
      have hres := ih (acc ++ [d])
        (by
          intro x hx
          apply hhalf
          rw [List.append_assoc, List.singleton_append] at hx
          exact hx)
        (by simp) (Nat.le_of_not_lt hover) groups hok
        (by rw [List.append_assoc, List.singleton_append]; exact hbig)
      rw [List.append_assoc, List.singleton_append] at hres
      exact hres

/-- One full Collapse pass on an over-budget list whose documents each weigh
at most half the ceiling succeeds and strictly shrinks the list; every
output document is a collapsed group. -/
theorem collapse_pass_half (get_num_tokens : String → Nat) (combine : List Document → String)
    (token_max : Nat) (docs : List Document)
    (hhalf : ∀ d ∈ docs, 2 * get_num_tokens d.page_content ≤ token_max)
    (hbig : token_max < length_function get_num_tokens docs) :
    ∃ out, collapse_pass (length_function get_num_tokens) combine token_max docs = .ok out ∧
      out.length < docs.length ∧
      ∀ d ∈ out, ∃ group, d = collapse_docs combine group := by
  cases docs with
  | nil => simp [length_function] at hbig
  | cons d rest =>
    have hd : 2 * get_num_tokens d.page_content ≤ token_max := hhalf d (by simp)
    have hnotover : ¬ token_max < length_function get_num_tokens ([] ++ [d]) := by
      simp [length_function]
      omega
    obtain ⟨groups, hok, hjoin, hnonempty, _⟩ :=
      splitAux_ok (length_function get_num_tokens) token_max rest [d] (by simp)
        (by intro hlen; simp at hlen)
    have hsplit : split_list_of_docs (length_function get_num_tokens) token_max (d :: rest) =
        .ok groups := by
      unfold split_list_of_docs
      rw [splitAux, if_neg hnotover]
      simpa using hok
    have hlen := splitAux_half get_num_tokens token_max rest [d]
      (by intro x hx; exact hhalf x (by simpa using hx)) (by simp)
      (by simp [length_function]; omega) groups hok (by simpa using hbig)
    refine ⟨groups.map (collapse_docs combine), ?_, ?_, ?_⟩
    · unfold collapse_pass
      rw [hsplit]
      rfl
    · simpa using hlen
    · intro x hx
      rcases List.mem_map.mp hx with ⟨g, _, rfl⟩
      exact ⟨g, rfl⟩

/-- Termination of the Decide/Collapse loop under the half-ceiling invariant:
with enough fuel (one unit more than the document count) the loop returns a
list fitting under the ceiling. -/
theorem collapse_loop_docs_terminates (get_num_tokens : String → Nat)
    (combine : List Document → String) (token_max : Nat)
    (hcombine : ∀ group, 2 * get_num_tokens (combine group) ≤ token_max) :
    ∀ (n : Nat) (docs : List Document), docs.length ≤ n →
      (∀ d ∈ docs, 2 * get_num_tokens d.page_content ≤ token_max) →
      ∃ r, collapse_loop_docs (length_function get_num_tokens) combine token_max
          (n + 1) docs = .ok r ∧
        length_function get_num_tokens r ≤ token_max := by
  intro n
  induction n with
  | zero =>
    intro docs hlen _
    have hnil : docs = [] := List.length_eq_zero.mp (Nat.le_zero.mp hlen)
    subst hnil
    refine ⟨[], ?_, by simp [length_function]⟩
    rw [collapse_loop_docs, if_neg (by simp [length_function])]
  | succ n ih =>
    intro docs hlen hhalf
    by_cases hbig : token_max < length_function get_num_tokens docs
    · obtain ⟨out, hpass, hout_len, hout_mem⟩ :=
        collapse_pass_half get_num_tokens combine token_max docs hhalf hbig
      have hout_half : ∀ d ∈ out, 2 * get_num_tokens d.page_content ≤ token_max := by
        intro d hd
        rcases hout_mem d hd with ⟨g, rfl⟩
        exact hcombine g
      obtain ⟨r, hr, hrle⟩ := ih out (by omega) hout_half
      refine ⟨r, ?_, hrle⟩
      rw [collapse_loop_docs, if_pos hbig, hpass]
      exact hr
    · refine ⟨docs, ?_, Nat.le_of_not_lt hbig⟩
      rw [collapse_loop_docs, if_neg hbig]

/-- Hex digits round-trip through the serializer's digit table. -/
theorem hexVal_hexDigitChar : ∀ i : Fin 16, hexVal (hexDigitChar i.val) = some i.val := by
  decide

/-- Unbundled form of hexVal_hexDigitChar. -/
theorem hexVal_hexDigitChar_lt (n : Nat) (h : n < 16) : hexVal (hexDigitChar n) = some n :=
  hexVal_hexDigitChar ⟨n, h⟩

/-- Skipping whitespace consumes a whitespace head. -/
theorem skipWs_ws (c : Char) (l : List Char) (h : isJsonWs c = true) :
    skipWs (c :: l) = skipWs l := by
  rw [skipWs, if_pos h]

/-- Skipping whitespace stops at a non-whitespace head. -/
theorem skipWs_not_ws (c : Char) (l : List Char) (h : isJsonWs c = false) :
    skipWs (c :: l) = c :: l := by
  rw [skipWs, if_neg (by simp [h])]

/-- Decoding a code unit below the surrogate range stands for itself. -/
theorem decodeUnicode_low (n : Nat) (h : n < 55296) (rest : List Char) :
    decodeUnicode n rest = some (Char.ofNat n, rest) := by
  rw [decodeUnicode, if_neg (by omega), if_neg (by omega)]

/-- Decoding the serializer's two-digit \u00XX escape yields the scalar. -/
theorem decodeEscape_u (hi lo : Nat) (hhi : hi < 2) (hlo : lo < 16) (tail : List Char) :
    decodeEscape ('u' :: '0' :: '0' :: hexDigitChar hi :: hexDigitChar lo :: tail) =
      some (Char.ofNat (hi * 16 + lo), tail) := by
  have h0 : hexVal '0' = some 0 := rfl
  have h1 : hexVal (hexDigitChar hi) = some hi := hexVal_hexDigitChar_lt hi (by omega)
  have h2 : hexVal (hexDigitChar lo) = some lo := hexVal_hexDigitChar_lt lo hlo
  have hlow : hi * 16 + lo < 55296 := by omega
  simp [decodeEscape, h0, h1, h2, decodeUnicode_low _ hlow]

/-- Round trip of one JSON string body: parsing the escaped text followed by
the closing quote recovers the original characters and the remainder,
given fuel exceeding the content length. -/
theorem parseStringBody_enc : ∀ (s : List Char) (rest : List Char) (fuel : Nat),
    s.length < fuel →
    parseStringBody fuel (s.flatMap escapeChar ++ '\x22' :: rest) = some (s, rest) := by
  intro s
  induction s with
  | nil =>
    intro rest fuel hf
    cases fuel with
    | zero => omega
    | succ f => simp [parseStringBody]
  | cons c cs ih =>
    intro rest fuel hf
    cases fuel with
    | zero => omega
    | succ f =>
    have ihx := ih rest f (by simp at hf; omega)
    rw [List.flatMap_cons, List.append_assoc]
    by_cases h1 : c = '\x22'
    · subst h1; simp [escapeChar, parseStringBody, decodeEscape, ihx]
    · by_cases h2 : c = '\x5c'
      · subst h2; simp [escapeChar, parseStringBody, decodeEscape, ihx]
      · by_cases h3 : c = '\x08'
        · subst h3; simp [escapeChar, parseStringBody, decodeEscape, ihx]
        · by_cases h4 : c = '\x0c'
          · subst h4; simp [escapeChar, parseStringBody, decodeEscape, ihx]
          · by_cases h5 : c = '\n'
            · subst h5; simp [escapeChar, parseStringBody, decodeEscape, ihx]
            · by_cases h6 : c = '\r'
              · subst h6; simp [escapeChar, parseStringBody, decodeEscape, ihx]
              · by_cases h7 : c = '\t'
                · subst h7; simp [escapeChar, parseStringBody, decodeEscape, ihx]
                · by_cases h8 : c.toNat < 32
                  · have hesc : escapeChar c = ['\x5c', 'u', '0', '0',
                        hexDigitChar (c.toNat / 16), hexDigitChar (c.toNat % 16)] := by
                      unfold escapeChar
                      rw [if_neg h1, if_neg h2, if_neg h3, if_neg h4, if_neg h5, if_neg h6,
                        if_neg h7, if_pos h8]
                    have harith : c.toNat / 16 * 16 + c.toNat % 16 = c.toNat := by omega
                    have hu := decodeEscape_u (c.toNat / 16) (c.toNat % 16)
                      (by omega) (by omega) (cs.flatMap escapeChar ++ '\x22' :: rest)
                    rw [hesc]
                    simp only [List.cons_append, List.nil_append]
                    rw [parseStringBody, if_neg (by decide), if_pos rfl, hu]
                    simp [ihx, harith, Char.ofNat_toNat]
                  · have hesc : escapeChar c = [c] := by
                      unfold escapeChar
                      rw [if_neg h1, if_neg h2, if_neg h3, if_neg h4, if_neg h5, if_neg h6,
                        if_neg h7, if_neg h8]
                    rw [hesc]
                    simp only [List.cons_append, List.nil_append]
                    rw [parseStringBody, if_neg h1, if_neg h2, if_neg h8]
                    simp [ihx]

/-- Canonical cons-exposed form of a rendered member followed by anything. -/
theorem dumpPair_cons (p : String × String) (rest : List Char) :
    dumpPair p ++ rest = '\x22' :: (p.1.data.flatMap escapeChar ++ '\x22' :: ':' :: ' ' ::
      '\x22' :: (p.2.data.flatMap escapeChar ++ '\x22' :: rest)) := by
  simp [dumpPair, encodeString]

/-- Round trip of one rendered member: the key string, the colon-space
separator and the value string parse back to the original pair. -/
theorem parseMember_dumpPair (p : String × String) (tail : List Char) (sfuel : Nat)
    (hk : p.1.data.length < sfuel) (hv : p.2.data.length < sfuel) :
    parseMember sfuel (dumpPair p ++ tail) = some (p, tail) := by
  have hk2 := parseStringBody_enc p.1.data
    (':' :: ' ' :: '\x22' :: (p.2.data.flatMap escapeChar ++ '\x22' :: tail)) sfuel hk
  have hv2 := parseStringBody_enc p.2.data tail sfuel hv
  rw [dumpPair_cons]
  simp [parseMember, hk2, hv2, skipWs_not_ws, skipWs_ws, isJsonWs]

/-- Round trip of the rendered member list: starting just after the optional
whitespace that follows the opening brace, the members parse back in order
and stop at the closing brace. -/
theorem parseMembers_dumpItems (sfuel : Nat) :
    ∀ (items : List (String × String)) (fuel : Nat) (tail : List Char),
      items ≠ [] → items.length < fuel →
      (∀ p ∈ items, p.1.data.length < sfuel ∧ p.2.data.length < sfuel) →
      parseMembers sfuel fuel (skipWs (dumpItems items ++ '\n' :: '\x7d' :: tail)) =
        some (items, tail) := by
  intro items
  induction items with
  | nil => intro fuel tail hne _ _; exact absurd rfl hne
  | cons p ps ih =>
    intro fuel tail _ hfuel hstr
    cases fuel with
    | zero => simp at hfuel
    | succ f =>
    have hp := hstr p (by simp)
    cases ps with
    | nil =>
      rw [dumpItems]
      simp only [List.cons_append]
      rw [skipWs_ws '\n' _ (by decide), skipWs_ws ' ' _ (by decide), skipWs_ws ' ' _ (by decide)]
      rw [dumpPair_cons, skipWs_not_ws '\x22' _ (by decide), ← dumpPair_cons]
      rw [parseMembers, parseMember_dumpPair p _ sfuel hp.1 hp.2]
      simp [skipWs_ws, skipWs_not_ws, isJsonWs]
    | cons q qs =>
      rw [dumpItems]
      case x_1 => simp
      simp only [List.cons_append, List.append_assoc]
      rw [skipWs_ws '\n' _ (by decide), skipWs_ws ' ' _ (by decide), skipWs_ws ' ' _ (by decide)]
      rw [dumpPair_cons, skipWs_not_ws '\x22' _ (by decide), ← dumpPair_cons]
      rw [parseMembers, parseMember_dumpPair p _ sfuel hp.1 hp.2]
      have ihx := ih f tail (by simp) (by simp at hfuel ⊢; omega)
        (fun x hx => hstr x (List.mem_cons_of_mem p hx))
      simp [skipWs_not_ws, isJsonWs, ihx]

/-- Whole-object round trip: the serializer's text parses back to the item
list with nothing left over. -/
theorem parseObject_dumps (sfuel fuel : Nat) (items : List (String × String))
    (hfuel : items.length < fuel)
    (hstr : ∀ p ∈ items, p.1.data.length < sfuel ∧ p.2.data.length < sfuel) :
    parseObject sfuel fuel (dumps items) = some (items, []) := by
  cases items with
  | nil =>
    cases fuel with
    | zero => simp at hfuel
    | succ f => rfl
  | cons p ps =>
    rw [dumps]
    unfold parseObject
    rw [skipWs_not_ws '\x7b' _ (by decide)]
    have hmem := parseMembers_dumpItems sfuel (p :: ps) fuel [] (by simp) hfuel hstr
    have hhead : ∃ Y, skipWs (dumpItems (p :: ps) ++ '\n' :: '\x7d' :: ([] : List Char)) =
        '\x22' :: Y := by
      cases ps with
      | nil =>
        rw [dumpItems]
        simp only [List.cons_append]
        rw [skipWs_ws '\n' _ (by decide), skipWs_ws ' ' _ (by decide), skipWs_ws ' ' _ (by decide)]
        rw [dumpPair_cons, skipWs_not_ws '\x22' _ (by decide)]
        exact ⟨_, rfl⟩
      | cons q qs =>
        rw [dumpItems]
        case x_1 => simp
        simp only [List.cons_append, List.append_assoc]
        rw [skipWs_ws '\n' _ (by decide), skipWs_ws ' ' _ (by decide), skipWs_ws ' ' _ (by decide)]
        rw [dumpPair_cons, skipWs_not_ws '\x22' _ (by decide)]
        exact ⟨_, rfl⟩
    obtain ⟨Y, hY⟩ := hhead
    rw [hY] at hmem
    show (if '\x7b' = '\x7b' then
        match skipWs (dumpItems (p :: ps) ++ '\n' :: '\x7d' :: ([] : List Char)) with
        | [] => none
        | c2 :: r2 => if c2 = '\x7d' then some ([], r2) else parseMembers sfuel fuel (c2 :: r2)
      else none) = some (p :: ps, [])
    rw [if_pos rfl, hY]
    show (if '\x22' = '\x7d' then some ([], Y) else parseMembers sfuel fuel ('\x22' :: Y)) =
      some (p :: ps, [])
    rw [if_neg (by decide)]
    exact hmem

/-- Appending a fresh key with dict assignment. -/
theorem dict_update_append : ∀ (d : List (String × String)) (k v : String),
    k ∉ d.map Prod.fst → dict_update d k v = d ++ [(k, v)] := by
  intro d
  induction d with
  | nil => intro k v _; rfl
  | cons p ps ih =>
    intro k v h
    simp only [List.map_cons, List.mem_cons, not_or] at h
    rw [dict_update, if_neg (fun heq => h.1 heq.symm), ih k v h.2]
    rfl

/-- Building a dict from members with pairwise-distinct keys keeps them all
in order. -/
theorem dict_of_pairs_nodup (pairs : List (String × String))
    (h : (pairs.map Prod.fst).Nodup) : dict_of_pairs pairs = pairs := by
  suffices hgen : ∀ (ps acc : List (String × String)),
      ((acc ++ ps).map Prod.fst).Nodup →
      ps.foldl (fun d kv => dict_update d kv.1 kv.2) acc = acc ++ ps by
    have := hgen pairs [] (by simpa using h)
    simpa [dict_of_pairs] using this
  intro ps
  induction ps with
  | nil => intro acc _; simp
  | cons kv rest ih =>
    intro acc hnd
    rw [List.foldl_cons]
    have hk : kv.1 ∉ acc.map Prod.fst := by
      rw [List.map_append] at hnd
      have hdisj := (List.nodup_append.mp hnd).2.2
      intro hmem
      exact hdisj hmem (by simp)
    rw [dict_update_append acc kv.1 kv.2 hk]
    have := ih (acc ++ [(kv.1, kv.2)])
      (by
        rw [List.append_assoc]
        simpa using hnd)
    rw [this]
    simp

/-- Every character contributes at least itself to its escape. -/
theorem escapeChar_length_pos (c : Char) : 1 ≤ (escapeChar c).length := by
  unfold escapeChar
  split
  · simp
  · split
    · simp
    · split
      · simp
      · split
        · simp
        · split
          · simp
          · split
            · simp
            · split
              · simp
              · split
                · simp
                · simp

/-- Escaping does not shorten text. -/
theorem flatMap_escapeChar_length : ∀ s : List Char,
    s.length ≤ (s.flatMap escapeChar).length := by
  intro s
  induction s with
  | nil => simp
  | cons c cs ih =>
    rw [List.flatMap_cons]
    simp only [List.length_cons, List.length_append]
    have := escapeChar_length_pos c
    omega

/-- A member's key and value are no longer than its rendering. -/
theorem dumpPair_length (p : String × String) :
    p.1.data.length ≤ (dumpPair p).length ∧ p.2.data.length ≤ (dumpPair p).length := by
  have hk := flatMap_escapeChar_length p.1.data
  have hv := flatMap_escapeChar_length p.2.data
  simp only [dumpPair, encodeString, List.length_append, List.length_cons]
  constructor <;> omega

/-- Each member's rendering is contained in the member-list rendering. -/
theorem dumpPair_le_dumpItems : ∀ (items : List (String × String)) (p : String × String),
    p ∈ items → (dumpPair p).length ≤ (dumpItems items).length := by
  intro items
  induction items with
  | nil => intro p hp; simp at hp
  | cons q qs ih =>
    intro p hp
    cases qs with
    | nil =>
      rw [List.mem_singleton] at hp
      subst hp
      rw [dumpItems]
      simp only [List.length_cons]
      omega
    | cons r rs =>
      rw [dumpItems]
      case x_1 => simp
      simp only [List.length_cons, List.length_append]
      rcases List.mem_cons.mp hp with hq | hmem
      · subst hq; omega
      · have := ih p hmem
        omega

/-- Items are fewer than the characters of their rendering. -/
theorem items_length_le_dumpItems : ∀ items : List (String × String),
    items.length ≤ (dumpItems items).length := by
  intro items
  induction items with
  | nil => simp [dumpItems]
  | cons p ps ih =>
    cases ps with
    | nil => rw [dumpItems]; simp
    | cons q qs =>
      rw [dumpItems]
      case x_1 => simp
      simp only [List.length_cons, List.length_append] at ih ⊢
      omega

/-! ### Claim theorems -/

/-- C2: the terminal Reduce state invokes the reduce chain exactly once, and
its input is the accumulated flat list of per-chunk summaries (the summaries
field of the workflow state, equal to one map-chain response per input
chunk), not the collapsed intermediate documents. -/
theorem reduce_invoked_once_on_summaries {R : Type} (lengthFunc : List Document → Nat)
    (chain : MapChain) (reduce_chain : List String → R) (fuel : Nat)
    (input_contents : List String) (r : RunResult R)
    (h : run_graph lengthFunc chain reduce_chain fuel input_contents = .ok r) :
    r.reduce_calls.length = 1 ∧
    r.reduce_calls = [r.state.summaries] ∧
    r.state.summaries = input_contents.map chain.onContent ∧
    r.state.final_summary = some (reduce_chain r.state.summaries) := by
  unfold run_graph at h
  cases hl : collapse_loop lengthFunc chain fuel (pre_decide_state R chain input_contents) with
  | error e => rw [hl] at h; simp at h
  | ok s3 =>
    rw [hl] at h
    simp at h
    subst h
    have hframe := (collapse_loop_frame lengthFunc chain fuel _ s3 hl).2.1
    rw [pre_decide_state_eq] at hframe
    simp [applyUpdate, generate_final_summary]
    exact hframe

/-- C2 witness: a concrete completed run on the single chunk x, whose reduce
call list is exactly the summaries field. -/
theorem reduce_invoked_once_on_summaries_witness :
    run_graph (length_function c2Tok) c2Chain c2Reduce 1 ["x"] = .ok c2Res ∧
    c2Res.reduce_calls = [c2Res.state.summaries] ∧
    c2Res.state.summaries = ["x"].map c2Chain.onContent := by
  refine ⟨rfl, ?_, ?_⟩
  · exact (reduce_invoked_once_on_summaries (length_function c2Tok) c2Chain c2Reduce 1
      ["x"] c2Res rfl).2.1
  · exact (reduce_invoked_once_on_summaries (length_function c2Tok) c2Chain c2Reduce 1
      ["x"] c2Res rfl).2.2.1

/-- C5: for a non-empty chunk list the fan-out state issues exactly one Send
to generate_summary per chunk, and when the workflow first reaches the
Decide check the accumulated summaries list is one map response per chunk,
so it has the same length as the chunk list. -/
theorem fanout_one_send_per_chunk (R : Type) (chain : MapChain)
    (input_contents : List String) (_hne : input_contents ≠ []) :
    map_summaries (initialState R input_contents) =
      input_contents.map (fun content => { node := ("generate_summary"), arg := { content } }) ∧
    (map_summaries (initialState R input_contents)).length = input_contents.length ∧
    (pre_decide_state R chain input_contents).summaries = input_contents.map chain.onContent ∧
    (pre_decide_state R chain input_contents).summaries.length = input_contents.length := by
  refine ⟨rfl, ?_, ?_, ?_⟩
  · simp [map_summaries, initialState]
  · rw [pre_decide_state_eq]
  · rw [pre_decide_state_eq]; simp

/-- C5 witness: two chunks produce two Sends and two summaries. -/
theorem fanout_one_send_per_chunk_witness :
    (["u", "v"] : List String) ≠ [] ∧
    (map_summaries (initialState Nat ["u", "v"])).length = 2 ∧
    (pre_decide_state Nat c5Chain ["u", "v"]).summaries.length = 2 := by
  refine ⟨by simp, ?_, ?_⟩
  · exact (fanout_one_send_per_chunk Nat c5Chain ["u", "v"] (by simp)).2.1
  · exact (fanout_one_send_per_chunk Nat c5Chain ["u", "v"] (by simp)).2.2.2

/-- C6: the Decide check chooses Collapse exactly when the measured length of
the current collapsed documents strictly exceeds TOKEN_MAX, and chooses the
terminal Reduce state exactly when it fits, so Decide on a fitting list goes
straight to Reduce with no further Collapse pass. -/
theorem should_collapse_iff {R : Type} (lengthFunc : List Document → Nat)
    (s : OverallState R) :
    (should_collapse lengthFunc s = NextNode.collapse_summaries ↔
      TOKEN_MAX < lengthFunc s.collapsed_summaries) ∧
    (should_collapse lengthFunc s = NextNode.generate_final_summary ↔
      lengthFunc s.collapsed_summaries ≤ TOKEN_MAX) := by
  unfold should_collapse
  by_cases h : TOKEN_MAX < lengthFunc s.collapsed_summaries
  · constructor
    · simp [h]
    · simp [h]
  · constructor
    · simp [h]
    · simp [h]
      omega

/-- C6 witness: a state over the ceiling goes to Collapse, and the same state
measured by a zero length function goes straight to Reduce. -/
theorem should_collapse_iff_witness :
    should_collapse c6Lf c6State = NextNode.collapse_summaries ∧
    should_collapse (length_function c2Tok) c6State = NextNode.generate_final_summary := by
  constructor
  · exact (should_collapse_iff c6Lf c6State).1.mpr (by decide)
  · exact (should_collapse_iff (length_function c2Tok) c6State).2.mpr (by decide)

/-- C8: when the input path is unreadable (the loader environment fails on
it), constructing the FlashcardGenerator fails with a load error, not a
generation failure, regardless of the prompt configurations, and the
constructor issues no model call before that failure surfaces. -/
theorem init_load_failure_no_model_calls (env : String → Except String (List Document))
    (file_path : String) (map_prompt reduce_prompt : PromptTemplateInput) (msg : String)
    (h : env file_path = .error msg) :
    (flashcard_generator_init env file_path map_prompt reduce_prompt).1 =
      .error (GenError.load msg) ∧
    ∀ input, Effect.modelCall input ∉
      (flashcard_generator_init env file_path map_prompt reduce_prompt).2 := by
  unfold flashcard_generator_init
  rw [h]
  exact ⟨rfl, by intro input hmem; simp at hmem⟩

/-- C8 witness: a concrete unreadable path yields the load error with no
model call in the effect trace. -/
theorem init_load_failure_no_model_calls_witness :
    c8Env ("missing.pdf") = .error ("FileNotFoundError") ∧
    (flashcard_generator_init c8Env ("missing.pdf")
        { system := some ("You are a helpful assistant."), user := some ("Summarize.") }
        { system := some ("You are a helpful assistant."), user := some ("Make flashcards.") }).1 =
      .error (GenError.load ("FileNotFoundError")) := by
  refine ⟨rfl, ?_⟩
  exact (init_load_failure_no_model_calls c8Env ("missing.pdf")
    { system := some ("You are a helpful assistant."), user := some ("Summarize.") }
    { system := some ("You are a helpful assistant."), user := some ("Make flashcards.") }
    ("FileNotFoundError") rfl).1

/-- C10: every post-fan-out node writes only its own key: _collect_summaries
and a successful _collapse_summaries return updates whose contents,
summaries and final_summary keys are absent, _generate_final_summary
returns an update carrying only final_summary, and consequently a completed
Decide/Collapse loop leaves contents and summaries exactly as fan-out
accumulated them, however many passes ran. -/
theorem post_fanout_frame {R : Type} (lengthFunc : List Document → Nat) (chain : MapChain)
    (reduce_chain : List String → R) :
    (∀ s : OverallState R, (collect_summaries s).contents = none ∧
      (collect_summaries s).summaries = none ∧ (collect_summaries s).final_summary = none) ∧
    (∀ (s : OverallState R) (u : StateUpdate R), collapse_summaries lengthFunc chain s = .ok u →
      u.contents = none ∧ u.summaries = none ∧ u.final_summary = none) ∧
    (∀ s : OverallState R, (generate_final_summary reduce_chain s).contents = none ∧
      (generate_final_summary reduce_chain s).summaries = none ∧
      (generate_final_summary reduce_chain s).collapsed_summaries = none) ∧
    (∀ (fuel : Nat) (s s' : OverallState R), collapse_loop lengthFunc chain fuel s = .ok s' →
      s'.contents = s.contents ∧ s'.summaries = s.summaries) := by
  refine ⟨fun s => ⟨rfl, rfl, rfl⟩, ?_, fun s => ⟨rfl, rfl, rfl⟩, ?_⟩
  · intro s u h
    exact collapse_summaries_fields lengthFunc chain s u h
  · intro fuel s s' h
    exact ⟨(collapse_loop_frame lengthFunc chain fuel s s' h).1,
      (collapse_loop_frame lengthFunc chain fuel s s' h).2.1⟩

/-- C10 witness: a concrete loop run preserves contents and summaries, and
the concrete collect update carries no summaries key. -/
theorem post_fanout_frame_witness :
    (collect_summaries c10State).summaries = none ∧
    (collapse_loop (length_function c2Tok) c10Chain 1 c10State = .ok c10State →
      c10State.summaries = c10State.summaries) := by
  constructor
  · exact ((post_fanout_frame (length_function c2Tok) c10Chain c2Reduce).1 c10State).2.1
  · intro h
    exact ((post_fanout_frame (length_function c2Tok) c10Chain c2Reduce).2.2.2 1
      c10State c10State h).2

/-- C1: evaluation of the orchestrator at a failing input.  Two chunks whose
summaries weigh 60000 tokens each complete a run (the Decide/Collapse loop
leaves the collapsed documents under TOKEN_MAX), yet the reduce step is
invoked on the accumulated summaries, whose token total 120000 exceeds
TOKEN_MAX: the collapse loop bounds collapsed_summaries, while
_generate_final_summary reads state["summaries"], so the claimed invariant
on the reduce input does not hold. -/
theorem reduce_input_exceeds_token_max :
    run_graph (length_function c1Tok) c1Chain c1Reduce 3 ["a", "b"] = .ok c1Res ∧
    c1Res.reduce_calls = [["a", "b"]] ∧
    length_function c1Tok (["a", "b"].map (fun s => { page_content := s })) = 120000 ∧
    TOKEN_MAX < 120000 ∧
    length_function c1Tok c1Res.state.collapsed_summaries ≤ TOKEN_MAX := by
  exact ⟨rfl, rfl, by decide, by decide, by decide⟩

/-- C3 counterexample: for ceiling 10 and a single document of 11 tokens the
Collapse pass does not partition the list at all; split_list_of_docs raises
the single-document ValueError, so the pass fails. -/
theorem collapse_pass_oversized_first_doc_fails :
    collapse_pass (length_function c3CexTok) c3Combine 10 [{ page_content := ("w") }] =
      .error ("A single document was longer than the context length") ∧
    split_list_of_docs (length_function c3CexTok) 10 [{ page_content := ("w") }] =
      .error ("A single document was longer than the context length") := by
  exact ⟨rfl, rfl⟩

/-- C3 amended: whenever the greedy split succeeds (it fails exactly when the
first document alone exceeds the ceiling), the Collapse pass partitions the
list left-to-right into contiguous groups, no group of two or more documents
exceeds the ceiling, each group is replaced by exactly one collapsed
document, and the pass strictly decreases the document count whenever some
group has two or more members. -/
theorem collapse_pass_packing (get_num_tokens : String → Nat) (combine : List Document → String)
    (token_max : Nat) (docs : List Document) (groups : List (List Document))
    (h : split_list_of_docs (length_function get_num_tokens) token_max docs = .ok groups) :
    groups.flatten = docs ∧
    (∀ g ∈ groups, 2 ≤ g.length → length_function get_num_tokens g ≤ token_max) ∧
    collapse_pass (length_function get_num_tokens) combine token_max docs =
      .ok (groups.map (collapse_docs combine)) ∧
    ((∃ g ∈ groups, 2 ≤ g.length) →
      (groups.map (collapse_docs combine)).length < docs.length) := by
  obtain ⟨hjoin, hbound, hne⟩ :=
    split_list_of_docs_spec (length_function get_num_tokens) token_max docs groups h
  refine ⟨hjoin, hbound, ?_, ?_⟩
  · unfold collapse_pass
    rw [h]
    rfl
  · intro hex
    have hdocs_ne : docs ≠ [] := by
      rcases hex with ⟨w, hw, hwlen⟩
      cases w with
      | nil => simp at hwlen
      | cons x xs =>
        have hx : x ∈ groups.flatten :=
          List.mem_flatten.mpr ⟨x :: xs, hw, List.mem_cons_self x xs⟩
        rw [hjoin] at hx
        exact List.ne_nil_of_mem hx
    have hcount := (join_length_bounds groups (hne hdocs_ne)).2 hex
    rw [hjoin] at hcount
    simpa using hcount

/-- C3 witness: three documents of 4 tokens under ceiling 10 split into the
groups pq and r; the first group has two members, both groups fit, and the
pass shrinks three documents to two. -/
theorem collapse_pass_packing_witness :
    split_list_of_docs (length_function c3Tok) 10 c3Docs = .ok c3Groups ∧
    c3Groups.flatten = c3Docs ∧
    (c3Groups.map (collapse_docs c3Combine)).length < c3Docs.length := by
  refine ⟨rfl, ?_, ?_⟩
  · exact (collapse_pass_packing c3Tok c3Combine 10 c3Docs c3Groups rfl).1
  · exact (collapse_pass_packing c3Tok c3Combine 10 c3Docs c3Groups rfl).2.2.2
      ⟨[{ page_content := ("p") }, { page_content := ("q") }], by decide, by decide⟩

/-- C4 counterexample: three documents of 60000 tokens each lie under the
TOKEN_MAX ceiling individually and fail the Decide check jointly, yet one
Collapse pass produces three singleton groups and returns three documents:
the pass does not strictly reduce the count under the claimed precondition
that each document fits under the ceiling. -/
theorem collapse_pass_no_shrink_within_ceiling :
    (∀ d ∈ c4Docs, c4Tok d.page_content ≤ TOKEN_MAX) ∧
    TOKEN_MAX < length_function c4Tok c4Docs ∧
    collapse_pass (length_function c4Tok) c4Combine TOKEN_MAX c4Docs =
      .ok [{ page_content := ("m") }, { page_content := ("m") }, { page_content := ("m") }] ∧
    ([{ page_content := ("m") }, { page_content := ("m") },
        { page_content := ("m") }] : List Document).length = c4Docs.length := by
  exact ⟨by decide, by decide, rfl, rfl⟩

/-- C4 amended: strengthen the precondition from each document fitting under
the ceiling to each document weighing at most half the ceiling (and the map
chain's collapsed outputs likewise).  Then a Collapse pass taken when the
Decide check fails strictly reduces the document count, and the alternating
Decide/Collapse loop terminates within one pass per document, ending with a
list that fits under the ceiling. -/
theorem collapse_loop_terminates_half_ceiling (get_num_tokens : String → Nat)
    (combine : List Document → String) (token_max : Nat) (docs : List Document)
    (hdocs : ∀ d ∈ docs, 2 * get_num_tokens d.page_content ≤ token_max)
    (hcombine : ∀ group, 2 * get_num_tokens (combine group) ≤ token_max) :
    (token_max < length_function get_num_tokens docs →
      ∀ out, collapse_pass (length_function get_num_tokens) combine token_max docs = .ok out →
        out.length < docs.length) ∧
    ∃ r, collapse_loop_docs (length_function get_num_tokens) combine token_max
        (docs.length + 1) docs = .ok r ∧
      length_function get_num_tokens r ≤ token_max := by
  constructor
  · intro hbig out hout
    obtain ⟨out2, hpass2, hlen2, _⟩ :=
      collapse_pass_half get_num_tokens combine token_max docs hdocs hbig
    rw [hout] at hpass2
    simp at hpass2
    subst hpass2
    exact hlen2
  · exact collapse_loop_docs_terminates get_num_tokens combine token_max hcombine
      docs.length docs (Nat.le_refl docs.length) hdocs

/-- C4 witness: three documents of 4 tokens each under ceiling 10 satisfy the
half-ceiling precondition and the loop terminates. -/
theorem collapse_loop_terminates_half_ceiling_witness :
    (∀ d ∈ c4WDocs, 2 * c4WTok d.page_content ≤ 10) ∧
    (∀ group, 2 * c4WTok (c4WCombine group) ≤ 10) ∧
    ∃ r, collapse_loop_docs (length_function c4WTok) c4WCombine 10
        (c4WDocs.length + 1) c4WDocs = .ok r ∧
      length_function c4WTok r ≤ 10 := by
  refine ⟨by decide, fun _ => by simp [c4WTok], ?_⟩
  exact (collapse_loop_terminates_half_ceiling c4WTok c4WCombine 10 c4WDocs
    (by decide) (fun _ => by simp [c4WTok])).2

/-- C9 counterexample: a configuration containing both string fields on which
the prompt builder nevertheless raises: the user template's lone opening
brace fails the format-string validation langchain performs at construction
time, so presence of the two fields does not guarantee success. -/
theorem get_prompt_template_fails_on_malformed_user :
    c9Cex.system ≠ none ∧ c9Cex.user ≠ none ∧
    get_prompt_template c9Cex = .error ("ValueError: invalid format string") := by
  exact ⟨by decide, by decide, rfl⟩

/-- C9 amended: the prompt builder is a pure function of its configuration
(equal inputs yield equal templates), it succeeds for every configuration
containing both the system and user string fields provided both are
well-formed format templates, and it fails whenever either field is missing
(it also fails on a malformed template). -/
theorem get_prompt_template_spec (p q : PromptTemplateInput) (sys usr : String)
    (hpq : p = q) (hsys : p.system = some sys) (husr : p.user = some usr)
    (hvs : validateFormat sys = true) (hvu : validateFormat usr = true) :
    get_prompt_template p = get_prompt_template q ∧
    get_prompt_template p =
      .ok { messages := [(.system, { template := sys }), (.human, { template := usr })] } ∧
    (∀ r : PromptTemplateInput, r.system = none ∨ r.user = none →
      ∀ t, get_prompt_template r ≠ .ok t) := by
  refine ⟨congrArg get_prompt_template hpq, ?_, ?_⟩
  · simp [get_prompt_template, hsys, husr, from_template, hvs, hvu, Except.map]
  · intro r hr t
    rcases hr with hr | hr
    · simp [get_prompt_template, hr]
    · cases hrs : r.system with
      | none => simp [get_prompt_template, hrs]
      | some s =>
        by_cases hv : validateFormat s = true
        · simp [get_prompt_template, hrs, from_template, hv, hr]
        · simp [get_prompt_template, hrs, from_template, hv]

/-- C9 witness: a well-formed configuration with a docs placeholder builds
the expected two-message template.  The scan also reproduces the finer
behaviour of CPython's scanner: an opening brace inside a field name is
rejected, while a closing brace inside a bracketed index is accepted. -/
theorem get_prompt_template_spec_witness :
    c9Good.system = some ("You are a helpful assistant.") ∧
    validateFormat ("Please summarize the following: \x7bdocs\x7d") = true ∧
    validateFormat ("\x7ba\x7bb\x7d\x7d") = false ∧
    validateFormat ("\x7ba[\x7d]\x7d") = true ∧
    get_prompt_template c9Good =
      .ok { messages := [(.system, { template := "You are a helpful assistant." }),
        (.human, { template := "Please summarize the following: \x7bdocs\x7d" })] } := by
  refine ⟨rfl, by decide, by decide, by decide, ?_⟩
  exact (get_prompt_template_spec c9Good c9Good ("You are a helpful assistant.")
    ("Please summarize the following: \x7bdocs\x7d") rfl rfl rfl (by decide) (by decide)).2.1

/-- C7: saving a flashcard mapping (pairwise-distinct question keys) with
save_json_file and reloading the written text with load_json_file yields a
mapping equal to the original: the loaded dict is the original items list,
so the key set and the value at every key agree exactly. -/
theorem save_load_round_trip (data : List (String × String))
    (h : (data.map Prod.fst).Nodup) :
    load_json_file (save_json_file data) = .ok data := by
  have hstr : ∀ p ∈ data, p.1.data.length < (dumps data).length + 1 ∧
      p.2.data.length < (dumps data).length + 1 := by
    intro p hp
    have hd := dumpPair_length p
    have hi := dumpPair_le_dumpItems data p hp
    have hdump : (dumpItems data).length ≤ (dumps data).length := by
      cases data with
      | nil => simp at hp
      | cons q qs =>
        rw [dumps]
        simp only [List.length_cons, List.length_append]
        omega
    constructor <;> omega
  have hfuel : data.length < (dumps data).length + 1 := by
    have h1 := items_length_le_dumpItems data
    cases data with
    | nil => simp
    | cons q qs =>
      rw [dumps]
      simp only [List.length_cons, List.length_append] at h1 ⊢
      omega
  have hobj := parseObject_dumps ((dumps data).length + 1) ((dumps data).length + 1)
    data hfuel hstr
  unfold load_json_file save_json_file
  rw [hobj]
  simp [dict_of_pairs_nodup data h, skipWs]

/-- C7 witness: a concrete two-card set with distinct questions round-trips
through the JSON file format. -/
theorem save_load_round_trip_witness :
    (c7Data.map Prod.fst).Nodup ∧
    load_json_file (save_json_file c7Data) = .ok c7Data := by
  refine ⟨by decide, ?_⟩
  exact save_load_round_trip c7Data (by decide)

end AFG
